import Mathlib

/-!
Shallow embedding of the Recommendation & Metrics Aggregator of this
repository: the function `generateJobMatches` of the dashboard component
(source file `src/unnamed/part_001`, lines 52–97) and the inline attendance
percentage computation of the same component (lines 113–115 and 123).

JavaScript numbers are embedded as exact integers (`Int`) where the source
holds integers, and the arithmetic `Math.round((p / m) * 100)` is embedded
over exact rationals: `mathRound ((p : Rat) / m * 100)`.  `Math.round` rounds
half toward positive infinity, i.e. it is `fun x => ⌊x + 1/2⌋`.  On every
value this development evaluates, binary floating point and exact rational
arithmetic agree: the quotients are either exactly representable or far from
a rounding boundary, and every fact proved below about a capped score only
uses that the raw score is at least 100.
-/

/-- A static catalog entry `{ role, company, minScore }` of the `jobRoles`
object (source lines 53–74). -/
structure RoleOption where
  role : String
  company : String
  minScore : Int
deriving DecidableEq, Repr

/-- An output record of `generateJobMatches` (source lines 85–90). -/
structure JobMatch where
  role : String
  company : String
  matchScore : Int
  recommendation : String
deriving DecidableEq, Repr

/-- One attendance record as the aggregator reads it: `{ present: boolean }`
(source line 114 reads only the `present` field). -/
structure AttendanceRecord where
  present : Bool
deriving DecidableEq, Repr

/-- The static `jobRoles` object of the source (lines 53–74), as the lookup
function `skill ↦ jobRoles[skill] || []` of line 80: an unknown key yields
the empty list. -/
def jobRoles (skill : String) : List RoleOption :=
  match skill with
  | "Python" =>
      [⟨"Data Scientist", "DataCorp Analytics", 85⟩,
       ⟨"Machine Learning Engineer", "AI Solutions Ltd", 90⟩,
       ⟨"Backend Developer", "TechStack Inc", 80⟩]
  | "JavaScript" =>
      [⟨"Frontend Developer", "WebTech Solutions", 80⟩,
       ⟨"Full Stack Developer", "Digital Innovations", 85⟩,
       ⟨"React Developer", "Modern Apps Inc", 82⟩]
  | "Java" =>
      [⟨"Software Engineer", "Enterprise Systems", 85⟩,
       ⟨"Android Developer", "Mobile Solutions", 88⟩,
       ⟨"Backend Developer", "Cloud Services Ltd", 82⟩]
  | "C++" =>
      [⟨"Systems Engineer", "Hardware Solutions", 88⟩,
       ⟨"Game Developer", "Gaming Studios", 85⟩,
       ⟨"Embedded Systems Developer", "IoT Technologies", 90⟩]
  | _ => []

/-- JavaScript `Math.round`: round half toward positive infinity. -/
def mathRound (q : ℚ) : ℤ := ⌊q + 1 / 2⌋

/-- The templated recommendation string of source line 89. -/
def recommendationText (skill : String) (proficiency : Int) : String :=
  "Strong match based on your " ++ skill ++ " skills (" ++ toString proficiency
    ++ "%). Your recent projects and assessments demonstrate the required expertise for this role."

/-- The body of the inner `forEach` of `generateJobMatches` (source lines
82–92) for one skill: each catalog option whose `minScore` is met contributes
one match with score `Math.min(Math.round((proficiency / minScore) * 100), 98)`.
`proficiency` is `Option Int` because the source reads `proficiencyLevels[index]`,
which is `undefined` past the end of the array, and `undefined >= minScore`
is false in JavaScript. -/
def matchesForSkill (skill : String) (proficiency : Option Int) : List JobMatch :=
  (jobRoles skill).filterMap fun option =>
    match proficiency with
    | some p =>
        if option.minScore ≤ p then
          some { role := option.role
                 company := option.company
                 matchScore := min (mathRound ((p : ℚ) / (option.minScore : ℚ) * 100)) 98
                 recommendation := recommendationText skill p }
        else none
    | none => none

/-- The outer `skills.forEach((skill, index) => ...)` accumulation of
`generateJobMatches` (source lines 76–93), collecting matches in input order
of the skills and, within one skill, in catalog order. -/
def collectMatches : List String → List Int → List JobMatch
  | [], _ => []
  | skill :: skills, [] =>
      matchesForSkill skill none ++ collectMatches skills []
  | skill :: skills, p :: profs =>
      matchesForSkill skill (some p) ++ collectMatches skills profs

/-- The comparator `(a, b) => b.matchScore - a.matchScore` of source line 96,
as the total preorder it sorts by: `a` precedes `b` when
`b.matchScore ≤ a.matchScore`. -/
def scoreGE (a b : JobMatch) : Prop := b.matchScore ≤ a.matchScore

instance : DecidableRel scoreGE := fun a b => Int.decLe b.matchScore a.matchScore

/-- `generateJobMatches` (source lines 52–97): collect the qualifying
matches, sort by `matchScore` descending and keep the first two.
`Array.prototype.sort` is stable (ECMAScript 2019), and for a total preorder
every stable sort produces the same list, so stable insertion sort embeds
`matches.sort((a, b) => b.matchScore - a.matchScore)` faithfully. -/
def generateJobMatches (skills : List String) (proficiencyLevels : List Int) :
    List JobMatch :=
  (List.insertionSort scoreGE (collectMatches skills proficiencyLevels)).take 2

/-- The error taxonomy of spec §7 that applies to the aggregator. -/
inductive AggregatorError where
  | invalidArgument
deriving DecidableEq, Repr

/-- Modelled from the spec: the spec's operation
`computeJobMatches(skills, proficiencyLevels)` (spec §4.1, §7, §9) demands a
synchronous `InvalidArgument` failure when the two input lists differ in
length; the source's `generateJobMatches` contains no such check (spec §9
calls the source's mismatch behavior undefined and mandates the fail-fast
contract for reimplementations).  On equal-length inputs the operation is
exactly the source's `generateJobMatches`. -/
def computeJobMatches (skills : List String) (proficiencyLevels : List Int) :
    Except AggregatorError (List JobMatch) :=
  if skills.length = proficiencyLevels.length then
    .ok (generateJobMatches skills proficiencyLevels)
  else
    .error .invalidArgument

/-- The attendance percentage of the dashboard (source lines 113–115 and
123): the ratio of present records over all records times 100 when the
record list is non-empty, 0 otherwise, then `Math.round` for display. -/
def computeAttendancePercentage (records : List AttendanceRecord) : Int :=
  mathRound
    (if records.length > 0 then
      (((records.filter fun r => r.present).length : ℚ) / (records.length : ℚ)) * 100
    else 0)

/-! ### Catalog facts -/

/-- Every catalog entry's threshold lies between 80 and 90. -/
lemma jobRoles_minScore_bounds (skill : String) (opt : RoleOption)
    (h : opt ∈ jobRoles skill) : 80 ≤ opt.minScore ∧ opt.minScore ≤ 90 := by
  unfold jobRoles at h
  split at h <;>
    simp only [List.mem_cons, List.not_mem_nil, or_false] at h <;>
    rcases h with rfl | rfl | rfl <;> norm_num

/-! ### Score facts -/

/-- When the proficiency meets a positive threshold, the raw rounded ratio is
at least 100. -/
lemma mathRound_ge_100 (p m : ℤ) (hm : 0 < m) (hp : m ≤ p) :
    100 ≤ mathRound ((p : ℚ) / (m : ℚ) * 100) := by
  unfold mathRound
  rw [Int.le_floor]
  have hm' : (0 : ℚ) < (m : ℚ) := by exact_mod_cast hm
  have hp' : (m : ℚ) ≤ (p : ℚ) := by exact_mod_cast hp
  have h1 : (1 : ℚ) ≤ (p : ℚ) / (m : ℚ) := (one_le_div hm').mpr hp'
  push_cast
  nlinarith

/-- Every match a single skill contributes is capped to exactly 98. -/
lemma matchesForSkill_score (skill : String) (prof : Option Int) (m : JobMatch)
    (h : m ∈ matchesForSkill skill prof) : m.matchScore = 98 := by
  unfold matchesForSkill at h
  rw [List.mem_filterMap] at h
  obtain ⟨opt, hopt, heq⟩ := h
  cases prof with
  | none => simp at heq
  | some p =>
    dsimp only at heq
    split at heq
    · next hle =>
        obtain rfl := Option.some.inj heq
        have h80 := (jobRoles_minScore_bounds skill opt hopt).1
        have hraw := mathRound_ge_100 p opt.minScore (by omega) hle
        simpa using min_eq_right (by omega : (98 : ℤ) ≤ mathRound ((p : ℚ) / (opt.minScore : ℚ) * 100))
    · exact absurd heq (by simp)

/-- Every collected match is capped to exactly 98. -/
lemma collectMatches_score (skills : List String) :
    ∀ profs m, m ∈ collectMatches skills profs → m.matchScore = 98 := by
  induction skills with
  | nil => intro profs m h; simp [collectMatches] at h
  | cons skill skills ih =>
    intro profs m h
    cases profs with
    | nil =>
      rw [collectMatches] at h
      rcases List.mem_append.mp h with h1 | h2
      · exact matchesForSkill_score _ _ _ h1
      · exact ih [] m h2
    | cons p profs =>
      rw [collectMatches] at h
      rcases List.mem_append.mp h with h1 | h2
      · exact matchesForSkill_score _ _ _ h1
      · exact ih profs m h2

/-! ### Sorting facts -/

/-- A list whose scores are all 98 is already sorted for the comparator's
preorder. -/
lemma sorted_of_const_score (l : List JobMatch) (h : ∀ x ∈ l, x.matchScore = 98) :
    List.Sorted scoreGE l := by
  induction l with
  | nil => exact List.sorted_nil
  | cons a l ih =>
    rw [List.sorted_cons]
    refine ⟨fun b hb => ?_, ih fun x hx => h x (List.mem_cons_of_mem a hx)⟩
    unfold scoreGE
    rw [h a (List.mem_cons_self a l), h b (List.mem_cons_of_mem a hb)]

/-- Since every collected match scores exactly 98, the stable sort leaves the
collection order unchanged and the result is the first two collected
matches. -/
lemma generateJobMatches_eq_take (skills : List String) (profs : List Int) :
    generateJobMatches skills profs = (collectMatches skills profs).take 2 := by
  unfold generateJobMatches
  rw [List.Sorted.insertionSort_eq
    (sorted_of_const_score _ (collectMatches_score skills profs))]

/-! ### Membership decomposition -/

/-- A skill whose proficiency is undefined contributes no matches. -/
lemma matchesForSkill_none (skill : String) : matchesForSkill skill none = [] := by
  simp [matchesForSkill]

/-- With an exhausted proficiency list nothing is collected. -/
lemma collectMatches_nil_profs (skills : List String) : collectMatches skills [] = [] := by
  induction skills with
  | nil => rfl
  | cons s ss ih => rw [collectMatches, matchesForSkill_none, ih]; rfl

/-- Any match one skill contributes comes from a catalog entry of that skill
whose threshold the proficiency meets, and carries that entry's role and
company. -/
lemma mem_matchesForSkill (skill : String) (p : Int) (m : JobMatch)
    (h : m ∈ matchesForSkill skill (some p)) :
    ∃ opt ∈ jobRoles skill,
      opt.minScore ≤ p ∧ m.role = opt.role ∧ m.company = opt.company := by
  unfold matchesForSkill at h
  rw [List.mem_filterMap] at h
  obtain ⟨opt, hopt, heq⟩ := h
  dsimp only at heq
  split at heq
  · next hle =>
      obtain rfl := Option.some.inj heq
      exact ⟨opt, hopt, hle, rfl, rfl⟩
  · exact absurd heq (by simp)

/-- Any collected match is justified by an index, the skill at that index,
the proficiency at that index, and a qualifying catalog entry. -/
lemma mem_collectMatches (skills : List String) :
    ∀ profs m, m ∈ collectMatches skills profs →
      ∃ (i : ℕ) (skill : String) (p : Int) (opt : RoleOption),
        skills[i]? = some skill ∧ profs[i]? = some p ∧
        opt ∈ jobRoles skill ∧ opt.minScore ≤ p ∧
        m.role = opt.role ∧ m.company = opt.company := by
  induction skills with
  | nil => intro profs m h; simp [collectMatches] at h
  | cons skill skills ih =>
    intro profs m h
    cases profs with
    | nil =>
      rw [collectMatches, matchesForSkill_none, collectMatches_nil_profs] at h
      simp at h
    | cons p profs =>
      rw [collectMatches] at h
      rcases List.mem_append.mp h with h1 | h2
      · obtain ⟨opt, hopt, hle, hr, hc⟩ := mem_matchesForSkill _ _ _ h1
        exact ⟨0, skill, p, opt, by simp, by simp, hopt, hle, hr, hc⟩
      · obtain ⟨i, sk, pr, opt, e1, e2, e3, e4, e5, e6⟩ := ih profs m h2
        exact ⟨i + 1, sk, pr, opt, by simpa using e1, by simpa using e2, e3, e4, e5, e6⟩

/-- The returned matches are among the collected ones. -/
lemma mem_of_mem_generateJobMatches (skills : List String) (profs : List Int)
    (m : JobMatch) (h : m ∈ generateJobMatches skills profs) :
    m ∈ collectMatches skills profs := by
  unfold generateJobMatches at h
  exact ((List.perm_insertionSort scoreGE _).mem_iff).mp (List.take_subset 2 _ h)

/-! ### Concrete evaluations shared by several witnesses -/

/-- For skill `Python` at proficiency 90, the result is the first two of the
three collected matches, all capped to 98. -/
lemma generateJobMatches_python_90 :
    generateJobMatches ["Python"] [90] =
      [⟨"Data Scientist", "DataCorp Analytics", 98, recommendationText "Python" 90⟩,
       ⟨"Machine Learning Engineer", "AI Solutions Ltd", 98, recommendationText "Python" 90⟩] := by
  norm_num [generateJobMatches, collectMatches, matchesForSkill, jobRoles, mathRound,
    List.insertionSort, List.orderedInsert, scoreGE, List.filterMap_cons]

/-! ### Claims -/

/-- C1: a catalog entry appears in the result only for an index whose skill
lists that entry and whose proficiency meets the entry's `minScore`
(equality qualifies); an entry whose threshold is not met never appears. -/
theorem C1_threshold_gate (skills : List String) (profs : List Int)
    (hlen : skills.length = profs.length) (m : JobMatch)
    (hm : m ∈ generateJobMatches skills profs) :
    ∃ (i : ℕ) (skill : String) (p : Int) (opt : RoleOption),
      skills[i]? = some skill ∧ profs[i]? = some p ∧
      opt ∈ jobRoles skill ∧ opt.minScore ≤ p ∧
      m.role = opt.role ∧ m.company = opt.company :=
  mem_collectMatches skills profs m (mem_of_mem_generateJobMatches skills profs m hm)

/-- Witness for C1 at `(["Python"], [90])` and the Data Scientist match. -/
theorem C1_threshold_gate_witness :
    ∃ (i : ℕ) (skill : String) (p : Int) (opt : RoleOption),
      (["Python"] : List String)[i]? = some skill ∧ ([90] : List Int)[i]? = some p ∧
      opt ∈ jobRoles skill ∧ opt.minScore ≤ p ∧
      (JobMatch.mk "Data Scientist" "DataCorp Analytics" 98
        (recommendationText "Python" 90)).role = opt.role ∧
      (JobMatch.mk "Data Scientist" "DataCorp Analytics" 98
        (recommendationText "Python" 90)).company = opt.company :=
  C1_threshold_gate ["Python"] [90] rfl
    ⟨"Data Scientist", "DataCorp Analytics", 98, recommendationText "Python" 90⟩
    (by rw [generateJobMatches_python_90]; exact List.mem_cons_self _ _)

/-- C2: every `matchScore` in the result lies between 0 and 98. -/
theorem C2_matchScore_cap (skills : List String) (profs : List Int)
    (hlen : skills.length = profs.length) (m : JobMatch)
    (hm : m ∈ generateJobMatches skills profs) :
    0 ≤ m.matchScore ∧ m.matchScore ≤ 98 := by
  have h := collectMatches_score skills profs m
    (mem_of_mem_generateJobMatches skills profs m hm)
  omega

/-- Witness for C2 at `(["Python"], [90])` and the Data Scientist match. -/
theorem C2_matchScore_cap_witness :
    0 ≤ (JobMatch.mk "Data Scientist" "DataCorp Analytics" 98
          (recommendationText "Python" 90)).matchScore ∧
    (JobMatch.mk "Data Scientist" "DataCorp Analytics" 98
          (recommendationText "Python" 90)).matchScore ≤ 98 :=
  C2_matchScore_cap ["Python"] [90] rfl
    ⟨"Data Scientist", "DataCorp Analytics", 98, recommendationText "Python" 90⟩
    (by rw [generateJobMatches_python_90]; exact List.mem_cons_self _ _)

/-- C3: the result never holds more than 2 matches, and empty or fully
ineligible input is not an error: the operation returns the empty list. -/
theorem C3_cardinality_and_totality (skills : List String) (profs : List Int)
    (hlen : skills.length = profs.length) :
    (generateJobMatches skills profs).length ≤ 2 ∧
    computeJobMatches [] [] = .ok [] ∧
    ((∀ (i : ℕ) (skill : String) (p : Int) (opt : RoleOption),
        skills[i]? = some skill → profs[i]? = some p → opt ∈ jobRoles skill →
        p < opt.minScore) →
      computeJobMatches skills profs = .ok []) := by
  refine ⟨?_, rfl, ?_⟩
  · unfold generateJobMatches
    simpa using List.length_take_le 2 _
  · intro hall
    have hnil : collectMatches skills profs = [] := by
      rw [List.eq_nil_iff_forall_not_mem]
      intro m hm
      obtain ⟨i, sk, p, opt, e1, e2, e3, e4, _, _⟩ :=
        mem_collectMatches skills profs m hm
      exact absurd e4 (not_le.mpr (hall i sk p opt e1 e2 e3))
    simp [computeJobMatches, hlen, generateJobMatches, hnil, List.insertionSort]

/-- Witness for C3 at `(["Python"], [50])`, a fully ineligible input. -/
theorem C3_cardinality_and_totality_witness :
    (generateJobMatches ["Python"] [50]).length ≤ 2 ∧
    computeJobMatches [] [] = .ok [] ∧
    ((∀ (i : ℕ) (skill : String) (p : Int) (opt : RoleOption),
        (["Python"] : List String)[i]? = some skill → ([50] : List Int)[i]? = some p →
        opt ∈ jobRoles skill → p < opt.minScore) →
      computeJobMatches ["Python"] [50] = .ok []) :=
  C3_cardinality_and_totality ["Python"] [50] rfl

/-- C4: the result is sorted by `matchScore` non-increasing, and ties keep
the original collection order; as every qualifying match is capped to the
same score 98, stability makes the result exactly the first two collected
matches in collection order. -/
theorem C4_sorted_and_stable (skills : List String) (profs : List Int)
    (hlen : skills.length = profs.length) :
    List.Pairwise scoreGE (generateJobMatches skills profs) ∧
    generateJobMatches skills profs = (collectMatches skills profs).take 2 :=
  ⟨sorted_of_const_score _ fun x hx =>
      collectMatches_score skills profs x (mem_of_mem_generateJobMatches skills profs x hx),
   generateJobMatches_eq_take skills profs⟩

/-- Witness for C4 at `(["Python"], [90])`. -/
theorem C4_sorted_and_stable_witness :
    List.Pairwise scoreGE (generateJobMatches ["Python"] [90]) ∧
    generateJobMatches ["Python"] [90] = (collectMatches ["Python"] [90]).take 2 :=
  C4_sorted_and_stable ["Python"] [90] rfl

/-- C5: on inputs of different lengths the spec's operation fails
synchronously with `InvalidArgument` and produces no output. -/
theorem C5_invalid_argument (skills : List String) (profs : List Int)
    (h : skills.length ≠ profs.length) :
    computeJobMatches skills profs = .error .invalidArgument := by
  simp [computeJobMatches, h]

/-- Witness for C5 at `(["Python", "Java"], [90])`. -/
theorem C5_invalid_argument_witness :
    computeJobMatches ["Python", "Java"] [90] = .error .invalidArgument :=
  C5_invalid_argument ["Python", "Java"] [90] (by decide)

/-- C6: `(["Python"], [90])` yields exactly three qualifying entries — Data
Scientist at DataCorp Analytics, Machine Learning Engineer at AI Solutions
Ltd (qualifying at exactly its threshold 90) and Backend Developer at
TechStack Inc — each capped to 98, and the result keeps only the top two of
them under the tie-break rule. -/
theorem C6_python_90_scenario :
    (collectMatches ["Python"] [90]).map (fun m => (m.role, m.company, m.matchScore)) =
      [("Data Scientist", "DataCorp Analytics", 98),
       ("Machine Learning Engineer", "AI Solutions Ltd", 98),
       ("Backend Developer", "TechStack Inc", 98)] ∧
    (∃ opt ∈ jobRoles "Python",
      opt.role = "Machine Learning Engineer" ∧ opt.minScore = 90 ∧ opt.minScore ≤ 90) ∧
    generateJobMatches ["Python"] [90] =
      [⟨"Data Scientist", "DataCorp Analytics", 98, recommendationText "Python" 90⟩,
       ⟨"Machine Learning Engineer", "AI Solutions Ltd", 98, recommendationText "Python" 90⟩] := by
  refine ⟨?_,
    ⟨⟨"Machine Learning Engineer", "AI Solutions Ltd", 90⟩, by simp [jobRoles],
      rfl, rfl, by norm_num⟩,
    generateJobMatches_python_90⟩
  norm_num [collectMatches, matchesForSkill, jobRoles, mathRound, List.filterMap_cons]

/-- C7: degenerate inputs are not errors: empty inputs yield the empty
result, an unknown skill contributes no matches, and the attendance
percentage of no records is 0. -/
theorem C7_degenerate_inputs :
    computeJobMatches [] [] = .ok [] ∧
    computeJobMatches ["Rust"] [95] = .ok [] ∧
    generateJobMatches ["Rust"] [95] = [] ∧
    jobRoles "Rust" = [] ∧
    computeAttendancePercentage [] = 0 := by
  refine ⟨rfl, ?_, ?_, rfl, ?_⟩
  · norm_num [computeJobMatches, generateJobMatches, collectMatches, matchesForSkill,
      jobRoles, List.insertionSort, List.filterMap_cons]
  · norm_num [generateJobMatches, collectMatches, matchesForSkill, jobRoles,
      List.insertionSort, List.filterMap_cons]
  · norm_num [computeAttendancePercentage, mathRound]

/-- C8: the attendance percentage is the rounded ratio of present records
over all records times 100, is 0 on no records, and is 75 on the record
list present, absent, present, present. -/
theorem C8_attendance_percentage (records : List AttendanceRecord) :
    computeAttendancePercentage records =
      (if records.length = 0 then 0
       else mathRound
        ((((records.filter fun r => r.present).length : ℚ) / (records.length : ℚ)) * 100)) ∧
    computeAttendancePercentage [⟨true⟩, ⟨false⟩, ⟨true⟩, ⟨true⟩] = 75 := by
  constructor
  · unfold computeAttendancePercentage
    rcases records with _ | ⟨r, rs⟩
    · norm_num [mathRound]
    · simp
  · norm_num [computeAttendancePercentage, mathRound, List.filter]

/-- C9: the core is deterministic — both operations are embedded as pure
functions of their arguments (the source core reads no mutable state and
calls no randomness source), so identical inputs give identical outputs. -/
theorem C9_deterministic (skills : List String) (profs : List Int)
    (records : List AttendanceRecord) :
    generateJobMatches skills profs = generateJobMatches skills profs ∧
    computeJobMatches skills profs = computeJobMatches skills profs ∧
    computeAttendancePercentage records = computeAttendancePercentage records :=
  ⟨rfl, rfl, rfl⟩

/-- C10: every catalog threshold is positive, so every qualifying raw score
is at least 100 and every returned `matchScore` is exactly the cap 98; the
descending sort and top-2 selection therefore degenerate to taking the
first two matches in collection order. -/
theorem C10_all_scores_98 (skills : List String) (profs : List Int) :
    (∀ (skill : String), ∀ opt ∈ jobRoles skill, 0 < opt.minScore) ∧
    (∀ m ∈ generateJobMatches skills profs, m.matchScore = 98) ∧
    generateJobMatches skills profs = (collectMatches skills profs).take 2 := by
  refine ⟨fun skill opt h => ?_,
    fun m hm => collectMatches_score skills profs m
      (mem_of_mem_generateJobMatches skills profs m hm),
    generateJobMatches_eq_take skills profs⟩
  have h80 := (jobRoles_minScore_bounds skill opt h).1
  omega
